import Mathlib

/-!
Verification development for the sprite animation core (package `sprite`):
a shallow embedding of the state/animation graph model, the path finder,
the command-group barrier synchronizer, the per-frame `Think` loop, the
command intake (`baseCommand`) and the snapshot API, together with
theorems settling the specification claims about them.

Conventions of the embedding:
* `yed.Node` / `yed.Edge` pointers become stable integer indices into the
  node/edge arenas of a `Graph`; `nil` pointers become `Option`.
* Go `int`/`int64` fields become `Int`; Go `%` on `Int` is `Int.tmod`
  (truncated remainder, matching Go's semantics).
* Go `float64` values become `F64`, an exact unreduced fraction over
  `Int`.  Every float the program manipulates (edge weights, the
  constant traversal costs 0 and 1, `rand.Float64()` draws) is exactly
  representable, so no rounding behaviour is lost.
* The global `rand` source becomes an explicit stream `List F64`
  threaded through the computation; a draw is consumed exactly where the
  source calls `rand.Float64()` (inside `selectAnEdge`, only when the
  total weight is positive).
* Mutation of sprites and of the shared, aliased `commandGroup` records
  becomes explicit state passing through a `World` holding the sprite
  arena and the group arena; a `command` references its group by index.
* A Go runtime panic (out-of-range index, nil dereference) is the
  distinguished result `ThinkRes.crash` / `Option.none`; the unbounded
  recursion of `Think` is driven by explicit fuel, with exhaustion
  reported as `ThinkRes.fuelOut`, distinct from normal termination.
* Side effects that the claims observe (trigger callbacks, sheet
  Load/Unload calls, waiter channel signals) are recorded in event logs
  on the sprite.
-/

namespace Glop

/-- Exact model of Go `float64` as an unreduced fraction `num/den`.
All floats occurring in this program (weights, costs, random draws) are
exact, so fraction arithmetic reproduces the Go arithmetic exactly.
Constructed values always have positive denominator. -/
structure F64 where
  num : Int
  den : Int
deriving Repr, DecidableEq, Inhabited

instance : OfNat F64 n := ⟨⟨(n : Int), 1⟩⟩

/-- Addition of fractions, without normalisation. -/
def F64.add (x y : F64) : F64 := ⟨x.num * y.den + y.num * x.den, x.den * y.den⟩

instance : Add F64 := ⟨F64.add⟩

/-- Multiplication of fractions, without normalisation. -/
def F64.mul (x y : F64) : F64 := ⟨x.num * y.num, x.den * y.den⟩

instance : Mul F64 := ⟨F64.mul⟩

/-- Strict order on fractions with positive denominators. -/
def F64.lt (x y : F64) : Prop := x.num * y.den < y.num * x.den

instance : LT F64 := ⟨F64.lt⟩

instance (x y : F64) : Decidable (x < y) := by
  unfold instLTF64 F64.lt; infer_instance

/-- Non-strict order on fractions with positive denominators. -/
def F64.le (x y : F64) : Prop := x.num * y.den ≤ y.num * x.den

instance : LE F64 := ⟨F64.le⟩

instance (x y : F64) : Decidable (x ≤ y) := by
  unfold instLEF64 F64.le; infer_instance

/-- A node of a yed graph together with its precomputed `node_data`.
Carries the identity-relevant remnants of `yed.Node` that the sprite
core reads: the first label line, the `sync` and `func` tags, the parent
group (`Group()`), the node's own outgoing edges (`Output`) and its
group-output edge list (`GroupOutput`), plus the `nodeData` fields
`time` and `state` computed at load. Edges are stored as indices into
the graph's edge arena. -/
structure NodeT where
  label : String := ""
  sync : String := ""
  func : String := ""
  time : Int := 0
  state : String := ""
  group : Option Nat := none
  outputs : List Nat := []
  groupOutputs : List Nat := []
deriving Repr, DecidableEq, Inhabited

/-- An edge of a yed graph together with its precomputed `edgeData`
(`facing` delta, `weight`, `cmd` label). -/
structure EdgeT where
  src : Nat := 0
  dst : Nat := 0
  facing : Int := 0
  weight : F64 := 1
  cmd : String := ""
deriving Repr, DecidableEq, Inhabited

/-- A yed graph: arenas of nodes and edges addressed by index; a node's
id (`yed.Node.Id()`) is its index in `nodes`. -/
structure Graph where
  nodes : List NodeT := []
  edges : List EdgeT := []
deriving Repr, DecidableEq, Inhabited

/-- Dereference a node id (`graph.Node(i)`). -/
def Graph.node (g : Graph) (i : Nat) : NodeT := g.nodes.getD i default

/-- Dereference an edge id. -/
def Graph.edge (g : Graph) (e : Nat) : EdgeT := g.edges.getD e default

/-- The `sharedSprite` data the core reads: the two graphs, the number
of facings and the two start nodes. `node_data` and `edge_data` live on
the nodes/edges themselves. -/
structure Shared where
  anim : Graph := {}
  state : Graph := {}
  numFacings : Nat := 1
  anim_start : Nat := 0
  state_start : Nat := 0
deriving Repr, DecidableEq, Inhabited

/-- A pending command: the list of edge-label names and, for a synced
command, the index of its `commandGroup` in the world's group arena. -/
structure Command where
  names : List String := []
  group : Option Nat := none
deriving Repr, DecidableEq, Inhabited

/-- The mutable per-sprite state of `Sprite`, plus event logs (`fired`,
`loads`, `unloads`, `signaled`) recording the side effects the claims
observe. `waiters` keeps each registered waiter's acceptable state set;
`hasTrigger` models whether a `TriggerFunc` is installed. -/
structure Sprite where
  shared : Shared := {}
  anim_node : Nat := 0
  state_node : Nat := 0
  thinks : Nat := 0
  facing : Int := 0
  prev_facing : Int := 0
  state_facing : Int := 0
  togo : Int := 0
  path : List Nat := []
  pending_cmds : List Command := []
  waiters : List (List String) := []
  hasTrigger : Bool := false
  fired : List String := []
  loads : List Int := []
  unloads : List Int := []
  signaled : List (List String) := []
deriving Repr, DecidableEq, Inhabited

/-- The shared mutable `commandGroup` record: sync tag, member sprite
indices, the sticky `was_ready` latch, and the `eta` / `paths` maps
(association lists keyed by sprite index) built once the group becomes
ready. -/
structure CommandGroup where
  sync_tag : String := ""
  sprites : List Nat := []
  was_ready : Bool := false
  eta : List (Nat × Int) := []
  paths : List (Nat × List Nat) := []
deriving Repr, DecidableEq, Inhabited

/-- The whole mutable state: the sprite arena and the group arena.
Go aliases groups through pointers shared by several sprites' commands;
here commands hold indices into `groups`. -/
structure World where
  sprites : List Sprite := []
  groups : List CommandGroup := []
deriving Repr, DecidableEq, Inhabited

/-- Go map update `m[k] = v` on an association list. -/
def setA {α : Type} (l : List (Nat × α)) (k : Nat) (v : α) : List (Nat × α) :=
  (k, v) :: l.filter (fun p => p.1 != k)

/-- `Sprite.AnimState`: the `state` carried by the current anim node. -/
def Sprite.AnimState (s : Sprite) : String := (s.shared.anim.node s.anim_node).state

/-- `Sprite.NumPendingCmds`. -/
def Sprite.NumPendingCmds (s : Sprite) : Nat := s.pending_cmds.length

/-- `Sprite.Idle`. -/
def Sprite.Idle (s : Sprite) : Bool := s.pending_cmds.isEmpty && s.path.isEmpty

/-- Whether an edge's command label is in the requested set
(membership in `cmd_map` in `selectAnEdge`). -/
def matchingCmd (g : Graph) (cmds : List String) (e : Nat) : Bool :=
  cmds.contains (g.edge e).cmd

/-- The summed weight of the matching outgoing edges of a node (first
loop of `selectAnEdge`). -/
def edgeTotal (g : Graph) (n : Nat) (cmds : List String) : F64 :=
  ((g.node n).outputs.filter (matchingCmd g cmds)).foldl (fun a e => a + (g.edge e).weight) 0

/-- Second loop of `selectAnEdge`: rescan the outputs accumulating the
weights of matching edges; return the first edge whose running total
reaches `pick`. -/
def scanPick (g : Graph) (cmds : List String) (pick : F64) : List Nat → F64 → Option Nat
  | [], _ => none
  | e :: es, acc =>
    if matchingCmd g cmds e then
      let acc2 := acc + (g.edge e).weight
      if pick ≤ acc2 then some e else scanPick g cmds pick es acc2
    else scanPick g cmds pick es acc

/-- `selectAnEdge` with a given random draw `r` (the value of
`rand.Float64()`): a weighted random choice among the outgoing edges of
`node` whose `cmd` is listed in `cmds`; `none` when the total weight of
matching edges is not positive. -/
def selectAnEdge (g : Graph) (n : Nat) (cmds : List String) (r : F64) : Option Nat :=
  if (0 : F64) < edgeTotal g n cmds then
    scanPick g cmds (r * edgeTotal g n cmds) (g.node n).outputs 0
  else none

/-- `selectAnEdge` threading the random stream: the source draws from
`rand` exactly when the total weight is positive. An exhausted stream
supplies 0. -/
def selectAnEdgeR (g : Graph) (n : Nat) (cmds : List String) (rng : List F64) :
    Option Nat × List F64 :=
  if (0 : F64) < edgeTotal g n cmds then
    (selectAnEdge g n cmds (rng.headD 0), rng.tail)
  else (none, rng)

/-- The chain `b, b.Group(), b.Group().Group(), ...` walked by `edgeTo`,
bounded by fuel against malformed group cycles. -/
def groupChain (g : Graph) : Nat → Nat → List Nat
  | 0, _ => []
  | fuel + 1, b =>
    b :: (match (g.node b).group with
          | none => []
          | some p => groupChain g fuel p)

/-- `edgeTo(a, b)`: the first group-output edge of `a` whose destination
is `b` or an ancestor group of `b`. -/
def edgeTo (g : Graph) (a b : Nat) : Option Nat :=
  (g.node a).groupOutputs.find?
    (fun e => (groupChain g (g.nodes.length + 1) b).contains (g.edge e).dst)

/-- `connectedByGroupEdge(n1, n2)`: some group-output edge of `n1` not
authored at `n1` itself leads to `n2`. -/
def connectedByGroupEdge (g : Graph) (n1 n2 : Nat) : Bool :=
  (g.node n1).groupOutputs.any
    (fun e => (g.edge e).src != n1 && (g.edge e).dst == n2)

/-- The auxiliary traversal graph of the path finder: a wrapper around
the anim graph with one synthetic vertex (index `NumNodes`) standing in
for the start node, and edges restricted to those whose command tag is
empty or equal to the requested command. -/
structure pathingGraph where
  shared : Shared
  start : Nat
  cmd : String
deriving Repr, DecidableEq, Inhabited

/-- `pathingGraph.NumVertex`: the anim graph's nodes plus the synthetic
start vertex. -/
def pathingGraph.NumVertex (p : pathingGraph) : Nat := p.shared.anim.nodes.length + 1

/-- `pathingGraph.Adjacent`: the eligible group-output edges of vertex
`n` (of the start node when `n` is the synthetic vertex), each with
cost 1. -/
def pathingGraph.Adjacent (p : pathingGraph) (n : Nat) : List Nat × List F64 :=
  let g := p.shared.anim
  let node := if n = g.nodes.length then g.node p.start else g.node n
  node.groupOutputs.foldl
    (fun acc e =>
      let ed := g.edge e
      if ed.cmd ≠ "" ∧ ed.cmd ≠ p.cmd then acc
      else (acc.1 ++ [ed.dst], acc.2 ++ [(1 : F64)]))
    ([], [])

/-- The texture-residency analysis graph (`animAlgoGraph`): group-output
edges of each node, where an edge leading away from the node's group
is assumed to have delay 0 and every other edge costs the node's frame
delay. The delay is the node's authored duration (`time` tag, default
100), which `node_data` precomputes into `NodeT.time`. -/
structure animAlgoGraph where
  anim : Graph
deriving Repr, DecidableEq, Inhabited

/-- `animAlgoGraph.Adjacent`: costs are 0 on edges exiting the node's
immediate group and the node's frame delay otherwise. -/
def animAlgoGraph.Adjacent (cg : animAlgoGraph) (n : Nat) : List Nat × List F64 :=
  let g := cg.anim
  let node := g.node n
  let delay : F64 := ⟨node.time, 1⟩
  node.groupOutputs.foldl
    (fun acc e =>
      let ed := g.edge e
      let c : F64 :=
        if node.group.isSome ∧ (g.node ed.dst).group ≠ node.group then 0 else delay
      (acc.1 ++ [ed.dst], acc.2 ++ [c]))
    ([], [])

/-- Pick the unvisited vertex with the smallest finite tentative
distance (ties broken by index order). -/
def minUnvisited (dist : List (Option F64)) (visited : List Bool) : Option Nat :=
  ((List.range dist.length).filter
      (fun i => !(visited.getD i true) && (dist.getD i none).isSome)).foldl
    (fun best i =>
      match best with
      | none => some i
      | some b =>
        if (dist.getD i none).getD 0 < (dist.getD b none).getD 0 then some i else best)
    none

/-- One round of Dijkstra: visit the closest unvisited vertex and relax
its outgoing edges. -/
def dijkstraStep (adjacent : Nat → List Nat × List F64)
    (st : List (Option F64) × List (Option Nat) × List Bool) :
    List (Option F64) × List (Option Nat) × List Bool :=
  let (dist, prev, visited) := st
  match minUnvisited dist visited with
  | none => st
  | some u =>
    let du := (dist.getD u none).getD 0
    let (adj, cost) := adjacent u
    let (dist2, prev2) :=
      (adj.zip cost).foldl
        (fun (dp : List (Option F64) × List (Option Nat)) vc =>
          let nd := du + vc.2
          match dp.1.getD vc.1 none with
          | none => (dp.1.set vc.1 (some nd), dp.2.set vc.1 (some u))
          | some dv =>
            if nd < dv then (dp.1.set vc.1 (some nd), dp.2.set vc.1 (some u))
            else dp)
        (dist, prev)
    (dist2, prev2, visited.set u true)

/-- Choose the reachable destination with the smallest distance (ties
broken by position in `ends`). -/
def bestEnd (dist : List (Option F64)) (ends : List Nat) : Option Nat :=
  ends.foldl
    (fun best v =>
      if (dist.getD v none).isSome then
        match best with
        | none => some v
        | some b =>
          if (dist.getD v none).getD 0 < (dist.getD b none).getD 0 then some v else best
      else best)
    none

/-- Follow the predecessor links back from a destination, accumulating
the path source-first. -/
def buildPath (prev : List (Option Nat)) : Nat → Nat → List Nat → List Nat
  | 0, v, acc => v :: acc
  | fuel + 1, v, acc =>
    match prev.getD v none with
    | none => v :: acc
    | some u => buildPath prev fuel u (v :: acc)

/-- Modelled from the spec: `algorithm.Dijkstra` lives in the
repository's `util/algorithm` package, which is not among the provided
sources.  Per the spec it computes the minimum-cost path from the
source set to the destination set over non-negative weights, ties being
broken by traversal order and not semantically significant; the
returned path starts at the source (the caller drops its first entry)
and is empty when no destination is reachable. -/
def Dijkstra (numVertex : Nat) (adjacent : Nat → List Nat × List F64)
    (srcs ends : List Nat) : F64 × List Nat :=
  let dist0 := (List.range numVertex).map
    (fun i => if srcs.contains i then some (0 : F64) else none)
  let prev0 : List (Option Nat) := List.replicate numVertex none
  let vis0 : List Bool := List.replicate numVertex false
  let fin := (List.range numVertex).foldl (fun st _ => dijkstraStep adjacent st)
    (dist0, prev0, vis0)
  match bestEnd fin.1 ends with
  | none => (0, [])
  | some e => ((fin.1.getD e none).getD 0, buildPath fin.2.1 numVertex e [])

/-- `Sprite.findPathForCmd`: for each command name in sequence, run
Dijkstra from the synthetic start vertex to every node reachable by an
edge tagged with that name, re-rooting at the end of the previous
sub-path; an empty result means no valid path. -/
def findPathForCmd (s : Sprite) (cmd : Command) (anim_node : Nat) : List Nat :=
  (cmd.names.foldl
    (fun (acc : List Nat × Nat) name =>
      let g := s.shared.anim
      let ends := (List.range g.edges.length).filterMap
        (fun i => if (g.edge i).cmd = name then some (g.edge i).dst else none)
      let p : pathingGraph := ⟨s.shared, acc.2, name⟩
      let path := (Dijkstra p.NumVertex p.Adjacent [g.nodes.length] ends).2
      let node_path := acc.1 ++ path.drop 1
      (node_path, node_path.getLastD acc.2))
    ([], anim_node)).1

/-- The greedy free-edge extension loop of `findPathForSyncedCmd`:
follow unlabeled edges from the tail of the base path until a node with
the requested sync tag is found, a node repeats, or no free edge
exists. -/
def syncLoop (g : Graph) (tag : String) :
    Nat → List Nat → Nat → List Nat → Option Nat → List F64 → List Nat × List F64
  | 0, _, _, extra, _, rng => (extra, rng)
  | fuel + 1, adds, tail, extra, edge?, rng =>
    if adds.contains tail then (extra, rng)
    else
      match edge? with
      | none => (extra, rng)
      | some e =>
        let adds2 := tail :: adds
        let tail2 := (g.edge e).dst
        let extra2 := extra ++ [tail2]
        if (g.node tail2).sync = tag then (extra2, rng)
        else
          let next := selectAnEdgeR g tail2 [""] rng
          syncLoop g tag fuel adds2 tail2 extra2 next.1 next.2

/-- `Sprite.findPathForSyncedCmd`: like `findPathForCmd` but extends
the path, if necessary, so that a node carrying the group's sync tag is
on it; if none can be reached along free edges the base path is
returned unmodified. `tag` is `cmd.group.sync_tag`. -/
def findPathForSyncedCmd (s : Sprite) (cmd : Command) (tag : String) (anim_node : Nat)
    (rng : List F64) : List Nat × List F64 :=
  let path := findPathForCmd s cmd anim_node
  if path = [] then (path, rng)
  else if path.any (fun n => (s.shared.anim.node n).sync == tag) then (path, rng)
  else
    let g := s.shared.anim
    let tail := path.getLastD anim_node
    let e0 := selectAnEdgeR g tail [""] rng
    let ex := syncLoop g tag (g.nodes.length + 2) [] tail [] e0.1 e0.2
    if ex.1 ≠ [] ∧ (g.node (ex.1.getLastD 0)).sync = tag then (path ++ ex.1, ex.2)
    else (path, ex.2)

/-- The facing update `(x + face + len(facings)) % len(facings)` with
Go's truncated `%` on `int`. -/
def modFacing (x face : Int) (n : Nat) : Int := Int.tmod (x + face + (n : Int)) (n : Int)

/-- The cost-accumulation loop of `commandGroup.ready`: walk the synced
path up to (excluding) the first node whose `sync` tag equals the
group's, charging the sprite's current `togo` at step 0 and the
destination node's duration afterwards, except across steps connected
by a group edge, which charge nothing. `prev` is the previous node
(initially the sprite's current anim node) and `first` tells whether we
are at step 0. -/
def readyTotal (g : Graph) (tag : String) (togo : Int) :
    Nat → Bool → List Nat → Int
  | _, _, [] => 0
  | prev, first, n :: rest =>
    if (g.node n).sync = tag then 0
    else
      (if connectedByGroupEdge g prev n then 0
       else if first then togo else (g.node n).time)
        + readyTotal g tag togo n false rest

/-- One member's turn in the eta-computation loop of `ready`: find the
member's synced path, accumulate its pre-sync time, store both, and
track the running maximum. -/
def readyStep (w : World) (cg : CommandGroup)
    (acc : List (Nat × Int) × List (Nat × List Nat) × Int × List F64) (i : Nat) :
    List (Nat × Int) × List (Nat × List Nat) × Int × List F64 :=
  let sp := w.sprites.getD i default
  let pr := findPathForSyncedCmd sp (sp.pending_cmds.headD default) cg.sync_tag
    sp.anim_node acc.2.2.2
  let total := readyTotal sp.shared.anim cg.sync_tag sp.togo sp.anim_node true pr.1
  (setA acc.1 i total, setA acc.2.1 i pr.1, max acc.2.2.1 total, pr.2)

/-- `commandGroup.ready` for the group at index `gi`: true (sticky) once
every member sprite has an empty in-flight path and its next pending
command belongs to this group; at the moment it first becomes true it
computes every member's synced path and time-to-sync, stores both, and
replaces each member's stored time by `max - time`. Returns the
updated world and random stream. -/
def ready (w : World) (gi : Nat) (rng : List F64) : Bool × World × List F64 :=
  let cg := w.groups.getD gi default
  if cg.was_ready then (true, w, rng)
  else if cg.sprites.any
      (fun i =>
        let sp := w.sprites.getD i default
        !sp.path.isEmpty || sp.pending_cmds.isEmpty ||
          ((sp.pending_cmds.headD default).group != some gi)) then
    (false, w, rng)
  else
    let fin := cg.sprites.foldl (readyStep w cg) ([], [], 0, rng)
    let eta2 := cg.sprites.foldl
      (fun e i => setA e i (fin.2.2.1 - (e.lookup i).getD 0)) fin.1
    let cg2 : CommandGroup :=
      { cg with was_ready := true, eta := eta2, paths := fin.2.1 }
    (true, { w with groups := w.groups.set gi cg2 }, fin.2.2.2)

/-- `Sprite.doTrigger`: record the trigger callback when one is
installed and the current anim node carries a `func` tag. -/
def doTrigger (s : Sprite) : Sprite :=
  if s.hasTrigger ∧ (s.shared.anim.node s.anim_node).func ≠ "" then
    { s with fired := s.fired ++ [(s.shared.anim.node s.anim_node).func] }
  else s

/-- The deferred waiter check at the end of `Think`: when no commands
are pending, signal and remove every waiter whose state set contains
the sprite's current anim state. -/
def resolveWaiters (s : Sprite) : Sprite :=
  if s.NumPendingCmds > 0 then s
  else
    { s with
      waiters := s.waiters.filter (fun wl => !(wl.contains s.AnimState)),
      signaled := s.signaled ++ s.waiters.filter (fun wl => wl.contains s.AnimState) }

/-- Apply the deferred waiter check to sprite `i` of the world. -/
def resolveW (w : World) (i : Nat) : World :=
  { w with sprites := w.sprites.set i (resolveWaiters (w.sprites.getD i default)) }

/-- The command-resolution prologue of `Think` (lines choosing `path`):
when a command is pending and no path is in flight, resolve it through
the path finder (ungrouped) or through the group's readiness countdown.
Returns the updated world, the local `path` variable (`none` for Go
`nil`) and the random stream; `none` overall models the panic of
indexing `path[0]` on a group's empty stored path. -/
def resolvePending (w : World) (i : Nat) (dt : Int) (rng : List F64) :
    Option (World × Option (List Nat) × List F64) :=
  let s := w.sprites.getD i default
  if s.pending_cmds ≠ [] ∧ s.path = [] then
    let head := s.pending_cmds.headD default
    match head.group with
    | none =>
      let res := findPathForCmd s head s.anim_node
      some (w, if res = [] then none else some res, rng)
    | some gi =>
      let r := ready w gi rng
      if r.1 then
        let w2 := r.2.1
        let cg := w2.groups.getD gi default
        let t := (cg.eta.lookup i).getD 0 - dt
        if t ≤ 0 then
          match (cg.paths.lookup i).getD [] with
          | [] => none
          | q :: qs =>
            let s2 := w2.sprites.getD i default
            let s3 := doTrigger { s2 with anim_node := q }
            let s4 := { s3 with togo := (s3.shared.anim.node q).time }
            let cg2 := { cg with eta := setA cg.eta i t }
            some ({ w2 with sprites := w2.sprites.set i s4,
                            groups := w2.groups.set gi cg2 },
              some qs, r.2.2)
        else
          let cg2 := { cg with eta := setA cg.eta i t }
          some ({ w2 with groups := w2.groups.set gi cg2 }, none, r.2.2)
      else some (r.2.1, none, r.2.2)
  else some (w, none, rng)

/-- Result of a `Think` call: normal completion with the new world and
random stream, a Go runtime panic, or fuel exhaustion (the Go original
recurses unboundedly on zero-duration cycles). -/
inductive ThinkRes where
  | ok : World → List F64 → ThinkRes
  | crash : ThinkRes
  | fuelOut : ThinkRes
deriving Repr, DecidableEq, Inhabited

/-- The one-time first-`Think` setup: load facing 0 and initialise the
remaining frame time from the current anim node's duration. -/
def firstSetup (s : Sprite) : Sprite :=
  { s with loads := s.loads ++ [0],
           togo := (s.shared.anim.node s.anim_node).time }

/-- The `s.thinks++` counter increment. -/
def bumpThinks (s : Sprite) : Sprite := { s with thinks := s.thinks + 1 }

/-- `Sprite.applyPath` plus the pending-queue pop, applied when the
local `path` variable of `Think` is non-nil: append the resolved nodes
to the in-flight path and drop the head command. -/
def applyPathStage (s : Sprite) (path? : Option (List Nat)) : Sprite :=
  match path? with
  | some p => { s with path := s.path ++ p, pending_cmds := s.pending_cmds.tail }
  | none => s

/-- The group-edge timer short-circuit of `Think`: when the sprite is
mid-path and its current node's group has a direct group edge to the
next queued node, the remaining frame time is forced to zero. -/
def shortCircuit (s : Sprite) : Sprite :=
  if s.path ≠ [] ∧ (s.shared.anim.node s.anim_node).group ≠ none then
    if (s.shared.anim.node s.anim_node).groupOutputs.any
        (fun e => (s.shared.anim.edge e).src != s.anim_node &&
          (s.shared.anim.edge e).dst == s.path.headD 0) then
      { s with togo := 0 }
    else s
  else s

/-- The in-frame branch of `Think` (`togo >= dt`): burn `dt` off the
remaining frame time and swap the loaded facing resources if the facing
changed since the previous frame. -/
def frameTick (s : Sprite) (dt : Int) : Sprite :=
  let s6 := { s with togo := s.togo - dt }
  if s6.facing ≠ s6.prev_facing then
    { s6 with unloads := s6.unloads ++ [s6.prev_facing],
              loads := s6.loads ++ [s6.facing],
              prev_facing := s6.facing }
  else s6

/-- The part of `Sprite.Think` after the negative-`dt` early return,
i.e. everything guarded by the deferred waiter check, on the world `w1`
in which the setup and counter mutations of sprite `i` are already
committed: command resolution, path application, group-edge timer
short-circuit, frame-time accounting, node advance, recursion (as
`recurse`); every exit runs the waiter check. -/
def thinkMain (w1 : World) (i : Nat) (dt : Int) (rng : List F64)
    (recurse : World → Int → List F64 → ThinkRes) : ThinkRes :=
    match resolvePending w1 i dt rng with
    | none => ThinkRes.crash
    | some (w2, path?, rng2) =>
      let s5 := shortCircuit (applyPathStage (w2.sprites.getD i default) path?)
      if dt ≤ s5.togo then
        ThinkRes.ok (resolveW { w2 with sprites := w2.sprites.set i (frameTick s5 dt) } i)
          rng2
      else
        let dt2 := dt - s5.togo
        let nx : Nat × Sprite × List F64 :=
          match s5.path with
          | p :: ps => (p, { s5 with path := ps }, rng2)
          | [] =>
            let se := selectAnEdgeR s5.shared.anim s5.anim_node [""] rng2
            match se.1 with
            | some e => ((s5.shared.anim.edge e).dst, s5, se.2)
            | none => (s5.anim_node, s5, se.2)
        let next := nx.1
        let s6 := nx.2.1
        let rng3 := nx.2.2
        let eo := edgeTo s6.shared.anim s6.anim_node next
        let face := (eo.map (fun e => (s6.shared.anim.edge e).facing)).getD 0
        let s7 :=
          if face ≠ 0 then
            { s6 with facing := modFacing s6.facing face s6.shared.numFacings }
          else s6
        let s8 := doTrigger { s7 with anim_node := next }
        let s9 := { s8 with togo := (s8.shared.anim.node s8.anim_node).time }
        match recurse { w2 with sprites := w2.sprites.set i s9 } dt2 rng3 with
        | ThinkRes.ok w3 rng4 => ThinkRes.ok (resolveW w3 i) rng4
        | r => r

/-- The body of `Sprite.Think` for sprite `i`, with the recursive
self-call abstracted as `recurse`. Mirrors the source order: one-time
setup, think counter increment, negative-`dt` early return (before the
waiter defer is registered), then the deferred-checked main part
(`thinkMain`). -/
def thinkStep (w : World) (i : Nat) (dt : Int) (rng : List F64)
    (recurse : World → Int → List F64 → ThinkRes) : ThinkRes :=
  let s0 := w.sprites.getD i default
  let s1 := if s0.thinks = 0 then firstSetup s0 else s0
  let s2 := bumpThinks s1
  if dt < 0 then ThinkRes.ok { w with sprites := w.sprites.set i s2 } rng
  else thinkMain { w with sprites := w.sprites.set i s2 } i dt rng recurse

/-- `Sprite.Think` with explicit recursion fuel. -/
def thinkAux : Nat → World → Nat → Int → List F64 → ThinkRes
  | 0, w, i, dt, rng => thinkStep w i dt rng (fun _ _ _ => ThinkRes.fuelOut)
  | fuel + 1, w, i, dt, rng =>
    thinkStep w i dt rng (fun w2 dt2 rng2 => thinkAux fuel w2 i dt2 rng2)

/-- `Sprite.Think` on sprite `i` of the world. -/
def Think (w : World) (i : Nat) (dt : Int) (rng : List F64) (fuel : Nat) : ThinkRes :=
  thinkAux fuel w i dt rng

/-- The checking pass of `baseCommand`: walk the state graph
label-by-label without mutating anything; `none` when some label has no
selectable edge from the node reached so far. -/
def trialWalk (g : Graph) : Nat → List String → List F64 → Option Nat × List F64
  | node, [], rng => (some node, rng)
  | node, name :: rest, rng =>
    match selectAnEdgeR g node [name] rng with
    | (none, rng2) => (none, rng2)
    | (some e, rng2) => trialWalk g (g.edge e).dst rest rng2

/-- The committing pass of `baseCommand`: re-walk the labels from the
current state node, moving the state position and accumulating facing
deltas modulo the facing count. The source dereferences the selected
edge without a nil check, so a failed selection is a panic (`none`). -/
def commitWalk (g : Graph) (numFacings : Nat) :
    Sprite → List String → List F64 → Option (Sprite × List F64)
  | s, [], rng => some (s, rng)
  | s, name :: rest, rng =>
    match selectAnEdgeR g s.state_node [name] rng with
    | (none, _) => none
    | (some e, rng2) =>
      commitWalk g numFacings
        { s with state_node := (g.edge e).dst,
                 state_facing := modFacing s.state_facing (g.edge e).facing numFacings }
        rest rng2

/-- The trailing free-edge loop of `baseCommand`: keep following
unlabeled edges until none is selectable. The Go loop is unbounded, so
fuel exhaustion (`none`) stands for divergence. -/
def settleFree (g : Graph) : Nat → Sprite → List F64 → Option (Sprite × List F64)
  | 0, _, _ => none
  | fuel + 1, s, rng =>
    match selectAnEdgeR g s.state_node [""] rng with
    | (none, rng2) => some (s, rng2)
    | (some e, rng2) => settleFree g fuel { s with state_node := (g.edge e).dst } rng2

/-- `Sprite.baseCommand`: reject (returning `false` and changing
nothing) when the label walk cannot be completed; otherwise commit the
walk, settle through trailing free edges and append the command to the
pending queue. `none` models a Go panic or divergence. -/
def baseCommand (s : Sprite) (cmd : Command) (rng : List F64) :
    Option (Bool × Sprite × List F64) :=
  let g := s.shared.state
  match trialWalk g s.state_node cmd.names rng with
  | (none, rng2) => some (false, s, rng2)
  | (some _, rng2) =>
    match commitWalk g s.shared.numFacings s cmd.names rng2 with
    | none => none
    | some (s2, rng3) =>
      match settleFree g (g.nodes.length + 1) s2 rng3 with
      | none => none
      | some (s3, rng4) =>
        some (true, { s3 with pending_cmds := s3.pending_cmds ++ [cmd] }, rng4)

/-- `Sprite.Command`: issue a single-label ungrouped command, ignoring
the acceptance flag. -/
def SpriteCommand (s : Sprite) (name : String) (rng : List F64) : Option (Sprite × List F64) :=
  match baseCommand s ⟨[name], none⟩ rng with
  | some (_, s2, rng2) => some (s2, rng2)
  | none => none

/-- The serializable snapshot `SpriteState` (its `internals`). -/
structure SpriteState where
  Facing : Int := 0
  State_node_id : Nat := 0
  Anim_node_id : Nat := 0
deriving Repr, DecidableEq, Inhabited

/-- `Sprite.GetSpriteState`: capture facing and graph positions. -/
def GetSpriteState (s : Sprite) : SpriteState :=
  ⟨s.facing, s.state_node, s.anim_node⟩

/-- `Sprite.SetSpriteState`: fails (returning the error message and
leaving the sprite untouched) when waiters are registered; otherwise
installs the snapshot's facing (loading its resources when needed),
graph positions, and clears the in-flight path and pending queue. -/
def SetSpriteState (s : Sprite) (st : SpriteState) : Option String × Sprite :=
  if s.waiters.length ≠ 0 then
    (some "Can't SetSpriteState while there are pending waiters.", s)
  else
    let s2 :=
      if s.thinks = 0 then
        { s with prev_facing := s.facing, facing := st.Facing,
                 state_facing := st.Facing, loads := s.loads ++ [st.Facing] }
      else if st.Facing ≠ s.facing then
        { s with facing := st.Facing, state_facing := st.Facing,
                 loads := s.loads ++ [st.Facing] }
      else s
    (none, { s2 with anim_node := st.Anim_node_id, state_node := st.State_node_id,
                     path := [], pending_cmds := [] })

/-! Concrete instances used by witnesses and counterexamples. -/

/-- Anim graph of the spec's walk example: start node "idle"
(time 100) with an edge labeled "walk" to node "walking" (time 50,
trigger tag "hit"). -/
def animWalk : Graph :=
  { nodes :=
      [{ label := "idle", time := 100, state := "rest", outputs := [0], groupOutputs := [0] },
       { label := "walking", time := 50, func := "hit", state := "moving" }],
    edges := [{ src := 0, dst := 1, cmd := "walk" }] }

/-- State graph of the walk example: "ready" --walk--> "moving". -/
def stateWalk : Graph :=
  { nodes := [{ label := "ready", outputs := [0] }, { label := "moving" }],
    edges := [{ src := 0, dst := 1, cmd := "walk" }] }

/-- Shared data of the walk example. -/
def sharedWalk : Shared :=
  { anim := animWalk, state := stateWalk, numFacings := 4 }

/-- A fresh sprite on the walk graphs with a trigger installed. -/
def spriteWalk : Sprite := { shared := sharedWalk, hasTrigger := true }

/-- The walk sprite right after `Command("walk")`. -/
def spriteWalkCmd : Sprite :=
  match SpriteCommand spriteWalk "walk" [] with
  | some pr => pr.1
  | none => spriteWalk

/-- One-sprite world for the walk example. -/
def wWalk : World := { sprites := [spriteWalkCmd] }

/-- Sprite `i` of a world (`w.sprites.getD i default`), to shorten
statements. -/
def spr (w : World) (i : Nat) : Sprite := w.sprites.getD i default

/-- Chain `Think` calls on sprite 0, keeping only normal completions. -/
def thinkO (r : Option World) (dt : Int) : Option World :=
  r.bind (fun w =>
    match Think w 0 dt [] 9 with
    | ThinkRes.ok w2 _ => some w2
    | _ => none)

/-- Sprite `i` after a `Think` call, when it completed normally. -/
def spriteAfter (r : ThinkRes) (i : Nat) : Option Sprite :=
  match r with
  | ThinkRes.ok w _ => some (w.sprites.getD i default)
  | _ => none

/-- Anim graph for the grouped-command instances: "a" (time 100)
--go--> "b" (time 50, sync tag "S"). -/
def animGrp : Graph :=
  { nodes :=
      [{ label := "a", time := 100, outputs := [0], groupOutputs := [0] },
       { label := "b", time := 50, sync := "S" }],
    edges := [{ src := 0, dst := 1, cmd := "go" }] }

/-- Sprite holding a pending command of group 0 on `animGrp`. -/
def spriteGrp : Sprite :=
  { shared := { anim := animGrp },
    pending_cmds := [{ names := ["go"], group := some 0 }] }

/-- World with one sprite whose head command belongs to group 0. -/
def wGrp : World :=
  { sprites := [spriteGrp], groups := [{ sync_tag := "S", sprites := [0] }] }

/-- Anim graph with no edge labeled "run" anywhere: the path finder
returns the empty path for that command. -/
def animRun : Graph := { nodes := [{ label := "a", time := 100 }] }

/-- World whose single sprite has a grouped pending command that admits
no path in the anim graph. -/
def wRun : World :=
  { sprites :=
      [{ shared := { anim := animRun },
         pending_cmds := [{ names := ["run"], group := some 0 }] }],
    groups := [{ sync_tag := "S", sprites := [0] }] }

/-- Anim graph for the barrier example: "s0" --go--> "mid" (time 30)
--free--> "syncpt" (sync tag "S"). -/
def animSync : Graph :=
  { nodes :=
      [{ label := "s0", time := 100, outputs := [0], groupOutputs := [0] },
       { label := "mid", time := 30, outputs := [1], groupOutputs := [1] },
       { label := "syncpt", time := 7, sync := "S" }],
    edges := [{ src := 0, dst := 1, cmd := "go" }, { src := 1, dst := 2 }] }

/-- Barrier member with 120ms of pre-sync time (its remaining frame
time, charged at step 0). -/
def sprSyncA : Sprite :=
  { shared := { anim := animSync }, togo := 120,
    pending_cmds := [{ names := ["go"], group := some 0 }] }

/-- Barrier member with 40ms of pre-sync time. -/
def sprSyncB : Sprite := { sprSyncA with togo := 40 }

/-- Two-member world for the barrier example (accumulated pre-sync
times 120 and 40). -/
def wSync : World :=
  { sprites := [sprSyncA, sprSyncB],
    groups := [{ sync_tag := "S", sprites := [0, 1] }] }

/-- Anim graph with a nested group: node 1 lives in group node 0 and
its sole group-output edge exits the group toward node 2. -/
def animC1 : Graph :=
  { nodes :=
      [{ label := "grp" },
       { label := "in", time := 100, group := some 0, outputs := [0], groupOutputs := [0] },
       { label := "out", time := 100 }],
    edges := [{ src := 1, dst := 2 }] }

/-- Shared data around `animC1`. -/
def sharedC1 : Shared := { anim := animC1, anim_start := 1 }

/-! Helper lemmas. -/

theorem getD_set_self {α : Type} (l : List α) (i : Nat) (a d : α) (h : i < l.length) :
    (l.set i a).getD i d = a := by
  induction l generalizing i with
  | nil => simp at h
  | cons hd tl ih =>
    cases i with
    | zero => rfl
    | succ n => simpa using ih n (by simpa using h)

theorem doTrigger_facing (s : Sprite) : (doTrigger s).facing = s.facing := by
  unfold doTrigger; split <;> rfl

theorem doTrigger_state_node (s : Sprite) : (doTrigger s).state_node = s.state_node := by
  unfold doTrigger; split <;> rfl

theorem doTrigger_shared (s : Sprite) : (doTrigger s).shared = s.shared := by
  unfold doTrigger; split <;> rfl

theorem doTrigger_togo (s : Sprite) : (doTrigger s).togo = s.togo := by
  unfold doTrigger; split <;> rfl

theorem doTrigger_prev_facing (s : Sprite) : (doTrigger s).prev_facing = s.prev_facing := by
  unfold doTrigger; split <;> rfl

theorem resolveWaiters_facing (s : Sprite) : (resolveWaiters s).facing = s.facing := by
  unfold resolveWaiters; split <;> rfl

theorem resolveWaiters_state_node (s : Sprite) :
    (resolveWaiters s).state_node = s.state_node := by
  unfold resolveWaiters; split <;> rfl

theorem ready_sprites (w : World) (gi : Nat) (rng : List F64) :
    (ready w gi rng).2.1.sprites = w.sprites := by
  unfold ready; dsimp only; split
  · rfl
  · split <;> rfl

/-! C1: costs in the pathing graph. -/

theorem foldl_ones {α : Type} (f : List Nat × List F64 → α → List Nat × List F64)
    (hf : ∀ acc e, f acc e = acc ∨ ∃ d, f acc e = (acc.1 ++ [d], acc.2 ++ [(1 : F64)]))
    (l : List α) (acc : List Nat × List F64) (h : ∀ c ∈ acc.2, c = (1 : F64)) :
    ∀ c ∈ (l.foldl f acc).2, c = (1 : F64) := by
  induction l generalizing acc with
  | nil => simp only [List.foldl_nil]; exact h
  | cons hd tl ih =>
    refine ih (f acc hd) ?_
    rcases hf acc hd with he | ⟨d, he⟩
    · rw [he]; exact h
    · rw [he]; intro c hc
      rcases List.mem_append.1 hc with hc | hc
      · exact h c hc
      · simpa using hc

/-- C1 (amended): in the auxiliary traversal graph built by the path
finder, every eligible edge has cost 1 — uniformly, with no zero-cost
exception for group-exit edges — for every shared graph set, every
command label, every start node and every vertex. -/
theorem pathingGraph_cost_uniform (sh : Shared) (start : Nat) (cmd : String) (n : Nat) :
    ∀ c ∈ (pathingGraph.Adjacent ⟨sh, start, cmd⟩ n).2, c = (1 : F64) := by
  unfold pathingGraph.Adjacent
  refine foldl_ones _ ?_ _ _ (by simp)
  intro acc e
  by_cases hc : (sh.anim.edge e).cmd ≠ "" ∧ (sh.anim.edge e).cmd ≠ cmd
  · left; exact if_pos hc
  · right; exact ⟨(sh.anim.edge e).dst, if_neg hc⟩

/-- C1 witness: the uniform-cost theorem applied to the concrete nested
group instance. -/
theorem pathingGraph_cost_uniform_witness :
    (1 : F64) ∈ (pathingGraph.Adjacent ⟨sharedC1, 1, "x"⟩ 1).2 ∧ (1 : F64) = 1 :=
  ⟨by decide, pathingGraph_cost_uniform sharedC1 1 "x" 1 1 (by decide)⟩

/-- C1 counterexample: in `animC1` the edge from node 1 (a member of
group 0) to node 2 (outside that group) is a group-exit edge, yet the
path finder's traversal graph prices it at 1, not 0; the zero-cost rule
the claim describes lives in the texture-residency graph
(`animAlgoGraph`) instead, which prices the same edge at 0. -/
theorem c1_counterexample :
    (animC1.node 1).group = some 0 ∧
    (animC1.node 2).group ≠ (animC1.node 1).group ∧
    pathingGraph.Adjacent ⟨sharedC1, 1, "x"⟩ 1 = ([2], [1]) ∧
    ((1 : F64) ≠ (0 : F64)) ∧
    animAlgoGraph.Adjacent ⟨animC1⟩ 1 = ([2], [0]) := by
  refine ⟨by decide, by decide, by decide, by decide, by decide⟩

/-! C4: the walk example. -/

/-- C4 counterexample: on the spec's own example graph, after
`Command("walk")` and `Think(30)`, the call `Think(70)` leaves the
sprite on "idle" (node 0) with `togo = 0` and no trigger fired — not on
"walking" (node 1) with `togo = 50`. -/
theorem c4_counterexample :
    (thinkO (thinkO (some wWalk) 30) 70).map
        (fun w =>
          let s := w.sprites.getD 0 default
          (s.anim_node, s.togo, s.fired)) = some (0, 0, []) ∧
    some ((0 : Nat), (0 : Int), ([] : List String)) ≠ some (1, 50, ["hit"]) := by
  refine ⟨by decide, by decide⟩

/-- C4 (amended): `Think(30)` leaves the sprite on "idle" with 70ms
remaining; `Think(70)` consumes the frame exactly, leaving the sprite
still on "idle" with `togo = 0`; the transition to "walking" (and its
trigger) happens on the next call with positive `dt`, e.g. `Think(10)`
ends on "walking" with `togo = 40` having fired the "hit" trigger. -/
theorem c4_amended_run :
    (thinkO (some wWalk) 30).map
        (fun w =>
          let s := w.sprites.getD 0 default
          (s.anim_node, s.togo)) = some (0, 70) ∧
    (thinkO (thinkO (some wWalk) 30) 70).map
        (fun w =>
          let s := w.sprites.getD 0 default
          (s.anim_node, s.togo, s.fired)) = some (0, 0, []) ∧
    (thinkO (thinkO (thinkO (some wWalk) 30) 70) 10).map
        (fun w =>
          let s := w.sprites.getD 0 default
          (s.anim_node, s.togo, s.fired)) = some (1, 40, ["hit"]) := by
  refine ⟨by decide, by decide, by decide⟩

/-! C5: grouped command with an empty stored path. -/

/-- C5: when the head pending command is grouped, the group is ready and
the countdown reaches zero, but the group's stored path for the sprite
is empty (here because no anim edge is labeled "run"), `Think`
dereferences the first element of the empty path and panics instead of
ending on a valid node. -/
theorem c5_group_empty_path_crash : Think wRun 0 5 [] 9 = ThinkRes.crash := by decide

/-! C3: Think(0). -/

/-- C3 counterexample: a sprite whose head pending command is grouped
and whose group becomes ready with a zero countdown: `Think(0)` pops the
pending command (count 1 → 0) and snaps the animation node from 0 to
the path head 1. -/
theorem c3_counterexample :
    (wGrp.sprites.getD 0 default).NumPendingCmds = 1 ∧
    (wGrp.sprites.getD 0 default).anim_node = 0 ∧
    (spriteAfter (Think wGrp 0 0 [] 9) 0).map
        (fun s => (s.NumPendingCmds, s.anim_node)) = some (0, 1) := by
  refine ⟨by decide, by decide, by decide⟩

/-! C9 and C10: negative dt. -/

/-- C9 counterexample: on a fresh sprite (think counter zero, initial
`togo` 0) a call `Think(-1)` is not a no-op: the one-time setup still
runs, setting `togo` to the start node's 100ms duration. -/
theorem c9_counterexample :
    (spr wWalk 0).togo = 0 ∧
    (spriteAfter (Think wWalk 0 (-1) [] 9) 0).map (fun s => s.togo) = some 100 ∧
    ((0 : Int) ≠ 100) := by
  refine ⟨by decide, by decide, by decide⟩

/-- C9 (amended): for every sprite that has already thought at least
once, `Think` with negative `dt` changes nothing but the think counter:
the animation node, state node, facing, `togo`, in-flight path, pending
queue and waiter list are untouched, no waiter is resolved, and the
random stream is not consumed. (On the very first call the one-time
setup still runs; see the C10 theorem.) -/
theorem think_negative_noop_after_first (w : World) (i : Nat) (dt : Int) (rng : List F64)
    (fuel : Nat) (hth : (spr w i).thinks ≠ 0) (hdt : dt < 0) :
    thinkAux fuel w i dt rng =
      ThinkRes.ok { w with sprites := w.sprites.set i (bumpThinks (spr w i)) } rng := by
  simp only [spr] at hth
  have key : ∀ R, thinkStep w i dt rng R =
      ThinkRes.ok { w with sprites := w.sprites.set i (bumpThinks (spr w i)) } rng := by
    intro R
    simp only [thinkStep, spr]
    rw [if_neg hth, if_pos hdt]
  cases fuel with
  | zero => exact key _
  | succ n => exact key _

/-- A world whose sprite has already thought three times. -/
def wThought : World := { sprites := [{ spriteWalkCmd with thinks := 3 }] }

/-- C9 witness: the no-op theorem applied to a sprite with think
counter 3 and `dt = -2`. -/
theorem think_negative_noop_witness :
    thinkAux 9 wThought 0 (-2) [] =
      ThinkRes.ok { wThought with sprites := wThought.sprites.set 0 (bumpThinks (spr wThought 0)) }
        [] :=
  think_negative_noop_after_first wThought 0 (-2) [] 9 (by decide) (by decide)

/-- C10: on a sprite's very first `Think` call the one-time setup runs
before the negative-`dt` check — `togo` is set to the current anim
node's duration, facing 0 is loaded and the think counter becomes 1,
even for negative `dt` — and on every later call (still observed under
negative `dt`, which returns right after the check) the setup does not
run again: only the think counter moves. -/
theorem think_first_setup_before_negative_check (w : World) (i : Nat) (dt : Int)
    (rng : List F64) (fuel : Nat) (hdt : dt < 0) :
    ((spr w i).thinks = 0 →
      thinkAux fuel w i dt rng =
        ThinkRes.ok { w with sprites := w.sprites.set i (bumpThinks (firstSetup (spr w i))) }
          rng ∧
      (bumpThinks (firstSetup (spr w i))).togo =
        ((spr w i).shared.anim.node (spr w i).anim_node).time ∧
      (bumpThinks (firstSetup (spr w i))).loads = (spr w i).loads ++ [0] ∧
      (bumpThinks (firstSetup (spr w i))).thinks = 1) ∧
    ((spr w i).thinks ≠ 0 →
      thinkAux fuel w i dt rng =
        ThinkRes.ok { w with sprites := w.sprites.set i (bumpThinks (spr w i)) } rng) := by
  constructor
  · intro h0
    have h0x := h0
    simp only [spr] at h0x
    refine ⟨?_, rfl, rfl, ?_⟩
    · have key : ∀ R, thinkStep w i dt rng R =
          ThinkRes.ok
            { w with sprites := w.sprites.set i (bumpThinks (firstSetup (spr w i))) } rng := by
        intro R
        simp only [thinkStep, spr]
        rw [if_pos h0x, if_pos hdt]
      cases fuel with
      | zero => exact key _
      | succ n => exact key _
    · show (spr w i).thinks + 1 = 1
      rw [h0]
  · intro h1
    have h1x := h1
    simp only [spr] at h1x
    have key : ∀ R, thinkStep w i dt rng R =
        ThinkRes.ok { w with sprites := w.sprites.set i (bumpThinks (spr w i)) } rng := by
      intro R
      simp only [thinkStep, spr]
      rw [if_neg h1x, if_pos hdt]
    cases fuel with
    | zero => exact key _
    | succ n => exact key _

/-- C10 witness: the setup theorem applied to the fresh walk sprite
with `dt = -1`. -/
theorem think_first_setup_witness :
    thinkAux 9 wWalk 0 (-1) [] =
      ThinkRes.ok
        { wWalk with sprites := wWalk.sprites.set 0 (bumpThinks (firstSetup (spr wWalk 0))) } [] ∧
    (bumpThinks (firstSetup (spr wWalk 0))).togo = 100 ∧
    (bumpThinks (firstSetup (spr wWalk 0))).thinks = 1 := by
  have h := (think_first_setup_before_negative_check wWalk 0 (-1) [] 9 (by decide)).1 (by decide)
  exact ⟨h.1, by decide, h.2.2.2⟩

/-! C6: total and atomic command rejection. -/

/-- C6: whenever the label-checking walk of `baseCommand` fails — in
particular whenever some requested label has no matching outgoing edge
from the state node the walk has reached, since a node none of whose
outgoing edges carries the label admits no selection — `baseCommand`
returns `false` and the sprite is returned completely unchanged:
nothing is enqueued and the state position is untouched. -/
theorem baseCommand_reject_total (s : Sprite) (cmd : Command) (rng : List F64)
    (h : (trialWalk s.shared.state s.state_node cmd.names rng).1 = none) :
    baseCommand s cmd rng =
      some (false, s, (trialWalk s.shared.state s.state_node cmd.names rng).2) ∧
    ∀ n name rng2,
      ((s.shared.state.node n).outputs.all
          (fun e => (s.shared.state.edge e).cmd != name)) = true →
      (selectAnEdgeR s.shared.state n [name] rng2).1 = none := by
  constructor
  · simp only [baseCommand]
    rcases htw : trialWalk s.shared.state s.state_node cmd.names rng with ⟨o, r2⟩
    rw [htw] at h
    have ho : o = none := h
    subst ho
    rfl
  · intro n name rng2 hall
    have hfil : (s.shared.state.node n).outputs.filter (matchingCmd s.shared.state [name])
        = [] := by
      rw [List.filter_eq_nil_iff]
      intro e he
      have hne := List.all_eq_true.mp hall e he
      simp only [bne_iff_ne, ne_eq] at hne
      simp [matchingCmd, hne]
    have hz : ¬((0 : F64) < edgeTotal s.shared.state n [name]) := by
      unfold edgeTotal
      rw [hfil]
      simp only [List.foldl_nil]
      decide
    unfold selectAnEdgeR
    rw [if_neg hz]

/-- C6 witness: the rejection theorem applied to the walk sprite parked
on state node 1, which has no outgoing edges at all. -/
theorem baseCommand_reject_witness :
    (trialWalk (spriteWalk.shared.state) 1 ["walk"] []).1 = none ∧
    baseCommand { spriteWalk with state_node := 1 } ⟨["walk"], none⟩ [] =
      some (false, { spriteWalk with state_node := 1 },
        (trialWalk ({ spriteWalk with state_node := 1 } : Sprite).shared.state 1 ["walk"] []).2) :=
  ⟨by decide,
    (baseCommand_reject_total { spriteWalk with state_node := 1 } ⟨["walk"], none⟩ []
      (by decide)).1⟩

/-! C7 and C8: snapshots. -/

/-- C7: `SetSpriteState` errors exactly when a waiter is registered; on
that error the sprite is returned unmodified, and on success the
pending queue and in-flight path are cleared and the snapshot's facing,
state node and animation node are installed. -/
theorem setSpriteState_spec (s : Sprite) (st : SpriteState) :
    ((SetSpriteState s st).1.isSome ↔ s.waiters ≠ []) ∧
    (s.waiters ≠ [] → (SetSpriteState s st).2 = s) ∧
    (s.waiters = [] →
      (SetSpriteState s st).2.pending_cmds = [] ∧
      (SetSpriteState s st).2.path = [] ∧
      (SetSpriteState s st).2.facing = st.Facing ∧
      (SetSpriteState s st).2.state_node = st.State_node_id ∧
      (SetSpriteState s st).2.anim_node = st.Anim_node_id) := by
  unfold SetSpriteState
  by_cases hw : s.waiters.length ≠ 0
  · rw [if_pos hw]
    have hne : s.waiters ≠ [] := by
      intro hnil; exact hw (by rw [hnil]; rfl)
    exact ⟨by simp [hne], fun _ => rfl, fun hnil => absurd hnil hne⟩
  · rw [if_neg hw]
    have hnil : s.waiters = [] := List.length_eq_zero.mp (not_not.mp hw)
    refine ⟨by simp [hnil], fun hne => absurd hnil hne, fun _ => ?_⟩
    split_ifs with h1 h2
    · exact ⟨rfl, rfl, rfl, rfl, rfl⟩
    · exact ⟨rfl, rfl, rfl, rfl, rfl⟩
    · refine ⟨rfl, rfl, ?_, rfl, rfl⟩
      simp only [not_not] at h2
      exact h2.symm

/-- C7 witness: the snapshot-restore theorem applied to a sprite with a
registered waiter (restore refused, sprite unchanged) and to the same
sprite without waiters (snapshot installed). -/
theorem setSpriteState_spec_witness :
    (SetSpriteState { spriteWalk with waiters := [["x"]] } ⟨2, 1, 1⟩).2 =
      { spriteWalk with waiters := [["x"]] } ∧
    (SetSpriteState spriteWalk ⟨2, 1, 1⟩).2.anim_node = 1 :=
  ⟨(setSpriteState_spec { spriteWalk with waiters := [["x"]] } ⟨2, 1, 1⟩).2.1 (by decide),
    ((setSpriteState_spec spriteWalk ⟨2, 1, 1⟩).2.2 (by decide)).2.2.2.2⟩

/-- C8: for a sprite with no registered waiters, restoring the snapshot
just captured succeeds and leaves the animation node, state node and
facing exactly as captured. -/
theorem snapshot_roundtrip (s : Sprite) (h : s.waiters = []) :
    (SetSpriteState s (GetSpriteState s)).1 = none ∧
    (SetSpriteState s (GetSpriteState s)).2.anim_node = s.anim_node ∧
    (SetSpriteState s (GetSpriteState s)).2.state_node = s.state_node ∧
    (SetSpriteState s (GetSpriteState s)).2.facing = s.facing := by
  unfold SetSpriteState GetSpriteState
  rw [if_neg (by rw [h]; simp)]
  split_ifs with h1 h2
  · exact ⟨rfl, rfl, rfl, rfl⟩
  · exact absurd rfl h2
  · exact ⟨rfl, rfl, rfl, rfl⟩

/-- C8 witness: the round-trip theorem applied to the walk sprite after
its command. -/
theorem snapshot_roundtrip_witness :
    (SetSpriteState spriteWalkCmd (GetSpriteState spriteWalkCmd)).1 = none ∧
    (SetSpriteState spriteWalkCmd (GetSpriteState spriteWalkCmd)).2.anim_node =
      spriteWalkCmd.anim_node ∧
    (SetSpriteState spriteWalkCmd (GetSpriteState spriteWalkCmd)).2.state_node =
      spriteWalkCmd.state_node ∧
    (SetSpriteState spriteWalkCmd (GetSpriteState spriteWalkCmd)).2.facing =
      spriteWalkCmd.facing :=
  snapshot_roundtrip spriteWalkCmd (by decide)

/-! C3: Think(0) preservation. -/

theorem applyPathStage_facing (s : Sprite) (p : Option (List Nat)) :
    (applyPathStage s p).facing = s.facing := by
  cases p <;> rfl

theorem applyPathStage_state_node (s : Sprite) (p : Option (List Nat)) :
    (applyPathStage s p).state_node = s.state_node := by
  cases p <;> rfl

theorem applyPathStage_togo (s : Sprite) (p : Option (List Nat)) :
    (applyPathStage s p).togo = s.togo := by
  cases p <;> rfl

theorem shortCircuit_facing (s : Sprite) : (shortCircuit s).facing = s.facing := by
  unfold shortCircuit
  split
  · split <;> rfl
  · rfl

theorem shortCircuit_state_node (s : Sprite) : (shortCircuit s).state_node = s.state_node := by
  unfold shortCircuit
  split
  · split <;> rfl
  · rfl

theorem shortCircuit_togo (s : Sprite) :
    (shortCircuit s).togo = 0 ∨ (shortCircuit s).togo = s.togo := by
  unfold shortCircuit
  split
  · split
    · exact Or.inl rfl
    · exact Or.inr rfl
  · exact Or.inr rfl

theorem frameTick_facing (s : Sprite) (dt : Int) : (frameTick s dt).facing = s.facing := by
  unfold frameTick
  dsimp only
  split <;> rfl

theorem frameTick_state_node (s : Sprite) (dt : Int) :
    (frameTick s dt).state_node = s.state_node := by
  unfold frameTick
  dsimp only
  split <;> rfl

theorem resolveWaiters_fields (s : Sprite) :
    (resolveWaiters s).facing = s.facing ∧ (resolveWaiters s).state_node = s.state_node :=
  ⟨resolveWaiters_facing s, resolveWaiters_state_node s⟩

theorem spr_setW (w : World) (i : Nat) (s : Sprite) (hi : i < w.sprites.length) :
    spr { w with sprites := w.sprites.set i s } i = s := by
  unfold spr
  exact getD_set_self _ _ _ _ hi

theorem spr_resolveW (w : World) (i : Nat) (hi : i < w.sprites.length) :
    spr (resolveW w i) i = resolveWaiters (spr w i) := by
  unfold resolveW spr
  exact getD_set_self _ _ _ _ hi

/-- Every sprite-visible effect of the command-resolution prologue of
`Think` keeps the facing and the state node; the remaining frame time
is either untouched or reset to some anim node's authored duration
(the group-snap case); the sprite arena keeps its length. -/
theorem resolvePending_preserves (w : World) (i : Nat) (dt : Int) (rng : List F64)
    (hi : i < w.sprites.length) (w2 : World) (p : Option (List Nat)) (rng2 : List F64)
    (h : resolvePending w i dt rng = some (w2, p, rng2)) :
    w2.sprites.length = w.sprites.length ∧
    (spr w2 i).facing = (spr w i).facing ∧
    (spr w2 i).state_node = (spr w i).state_node ∧
    (spr w2 i).shared = (spr w i).shared ∧
    ((spr w2 i).togo = (spr w i).togo ∨
      ∃ q, (spr w2 i).togo = ((spr w i).shared.anim.node q).time) := by
  simp only [resolvePending] at h
  split at h
  · split at h
    · simp only [Option.some.injEq, Prod.mk.injEq] at h
      obtain ⟨hw, -, -⟩ := h
      subst hw
      exact ⟨rfl, rfl, rfl, rfl, Or.inl rfl⟩
    · next _ g hg =>
      split at h
      · split at h
        · split at h
          · exact absurd h (by simp)
          · next _ qh qt hqs =>
            simp only [Option.some.injEq, Prod.mk.injEq] at h
            obtain ⟨hw, -, -⟩ := h
            subst hw
            have hset : ∀ s : Sprite,
                ((ready w g rng).2.1.sprites.set i s).getD i default = s :=
              fun s => getD_set_self _ _ _ _ (by rw [ready_sprites]; exact hi)
            refine ⟨?_, ?_, ?_, ?_, Or.inr ⟨qh, ?_⟩⟩
            · simp [ready_sprites]
            · simp only [spr, hset]
              simp [doTrigger_facing, ready_sprites]
            · simp only [spr, hset]
              simp [doTrigger_state_node, ready_sprites]
            · simp only [spr, hset]
              simp [doTrigger_shared, ready_sprites]
            · simp only [spr, hset]
              simp [doTrigger_shared, ready_sprites]
        · simp only [Option.some.injEq, Prod.mk.injEq] at h
          obtain ⟨hw, -, -⟩ := h
          subst hw
          simp [spr, ready_sprites]
      · simp only [Option.some.injEq, Prod.mk.injEq] at h
        obtain ⟨hw, -, -⟩ := h
        subst hw
        simp [spr, ready_sprites]
  · simp only [Option.some.injEq, Prod.mk.injEq] at h
    obtain ⟨hw, -, -⟩ := h
    subst hw
    exact ⟨rfl, rfl, rfl, rfl, Or.inl rfl⟩

theorem getD_nonneg_all {l : List NodeT} (hg : ∀ nd ∈ l, 0 ≤ nd.time) (n : Nat) :
    0 ≤ (l.getD n default).time := by
  induction l generalizing n with
  | nil => cases n <;> exact le_refl 0
  | cons a t ih =>
    cases n with
    | zero => exact hg a (by simp)
    | succ m => exact ih (fun nd hnd => hg nd (by simp [hnd])) m

/-- Every node dereference of a graph whose node arena carries only
non-negative authored durations yields a non-negative duration (the
out-of-range default has duration 0). -/
theorem node_time_nonneg (g : Graph) (hg : ∀ nd ∈ g.nodes, 0 ≤ nd.time) :
    ∀ n, 0 ≤ (g.node n).time := fun n => getD_nonneg_all hg n

/-- The main part of `Think` with `dt = 0` always takes the in-frame
branch (given non-negative frame times), which never touches the facing
or the state-graph position. -/
theorem thinkMain_zero_preserves (w1 : World) (i : Nat) (rng : List F64)
    (R : World → Int → List F64 → ThinkRes) (w' : World) (rng' : List F64)
    (hi : i < w1.sprites.length)
    (htogo : 0 ≤ (spr w1 i).togo)
    (htime : ∀ n, 0 ≤ ((spr w1 i).shared.anim.node n).time)
    (h : thinkMain w1 i 0 rng R = ThinkRes.ok w' rng') :
    (spr w' i).facing = (spr w1 i).facing ∧
    (spr w' i).state_node = (spr w1 i).state_node := by
  simp only [thinkMain] at h
  rcases hrp : resolvePending w1 i 0 rng with _ | ⟨w2, p, rng2⟩
  · rw [hrp] at h
    exact absurd h (by simp)
  · rw [hrp] at h
    dsimp only at h
    obtain ⟨hlen, hfac, hstn, hsh, htg⟩ :=
      resolvePending_preserves w1 i 0 rng hi w2 p rng2 hrp
    have hi2 : i < w2.sprites.length := by rw [hlen]; exact hi
    have htogo2 : 0 ≤ (spr w2 i).togo := by
      rcases htg with he | ⟨q, he⟩
      · rw [he]; exact htogo
      · rw [he]; exact htime q
    have hs5 : (0 : Int) ≤
        (shortCircuit (applyPathStage (w2.sprites.getD i default) p)).togo := by
      rcases shortCircuit_togo (applyPathStage (w2.sprites.getD i default) p) with hz | hz
      · rw [hz]
      · rw [hz, applyPathStage_togo]
        exact htogo2
    rw [if_pos hs5] at h
    injection h with hw hr
    subst hw
    set s7 := frameTick (shortCircuit (applyPathStage (w2.sprites.getD i default) p)) 0
      with hs7
    have hlen2 : i < ({ w2 with sprites := w2.sprites.set i s7 } : World).sprites.length := by
      simpa using hi2
    rw [spr_resolveW _ _ hlen2, spr_setW _ _ _ hi2, hs7]
    constructor
    · rw [resolveWaiters_facing, frameTick_facing, shortCircuit_facing, applyPathStage_facing]
      exact hfac
    · rw [resolveWaiters_state_node, frameTick_state_node, shortCircuit_state_node,
        applyPathStage_state_node]
      exact hstn

/-- One full `Think` body call with `dt = 0` preserves facing and
state-graph position (given non-negative frame times). -/
theorem thinkStep_zero_preserves (w : World) (i : Nat) (rng : List F64)
    (R : World → Int → List F64 → ThinkRes) (w' : World) (rng' : List F64)
    (hi : i < w.sprites.length)
    (htogo : 0 ≤ (spr w i).togo)
    (htime : ∀ n, 0 ≤ ((spr w i).shared.anim.node n).time)
    (h : thinkStep w i 0 rng R = ThinkRes.ok w' rng') :
    (spr w' i).facing = (spr w i).facing ∧
    (spr w' i).state_node = (spr w i).state_node := by
  have hlt : ¬((0 : Int) < 0) := by decide
  simp only [thinkStep, if_neg hlt] at h
  set s2 := bumpThinks
    (if (w.sprites.getD i default).thinks = 0 then firstSetup (w.sprites.getD i default)
     else w.sprites.getD i default) with hs2
  have hi1 : i < ({ w with sprites := w.sprites.set i s2 } : World).sprites.length := by
    simpa using hi
  have hsprw1 : spr { w with sprites := w.sprites.set i s2 } i = s2 := spr_setW _ _ _ hi
  have hfac2 : s2.facing = (spr w i).facing := by
    rw [hs2]; unfold bumpThinks firstSetup spr; split <;> rfl
  have hstn2 : s2.state_node = (spr w i).state_node := by
    rw [hs2]; unfold bumpThinks firstSetup spr; split <;> rfl
  have hsh2 : s2.shared = (spr w i).shared := by
    rw [hs2]; unfold bumpThinks firstSetup spr; split <;> rfl
  have htogo2 : 0 ≤ s2.togo := by
    rw [hs2]; unfold bumpThinks firstSetup
    split
    · exact htime _
    · exact htogo
  obtain ⟨hf, hs⟩ := thinkMain_zero_preserves _ i rng R w' rng' hi1
    (by rw [hsprw1]; exact htogo2)
    (by rw [hsprw1, hsh2]; exact htime) h
  rw [hsprw1] at hf hs
  exact ⟨hf.trans hfac2, hs.trans hstn2⟩

/-- C3 (amended): `Think(0)` never changes the facing index or the
state-graph node of the sprite (for non-negative frame data); the
pending-command count and the animation node, however, may change when
a pending command is resolved into a path (see the counterexample). -/
theorem think_zero_preserves_state_facing (w : World) (i : Nat) (rng : List F64)
    (fuel : Nat) (w' : World) (rng' : List F64)
    (hi : i < w.sprites.length)
    (htogo : 0 ≤ (spr w i).togo)
    (htime : ∀ n, 0 ≤ ((spr w i).shared.anim.node n).time)
    (h : thinkAux fuel w i 0 rng = ThinkRes.ok w' rng') :
    (spr w' i).facing = (spr w i).facing ∧
    (spr w' i).state_node = (spr w i).state_node := by
  cases fuel with
  | zero => exact thinkStep_zero_preserves w i rng _ w' rng' hi htogo htime h
  | succ n => exact thinkStep_zero_preserves w i rng _ w' rng' hi htogo htime h

/-- C3 witness: the preservation theorem applied to the grouped-command
world, where `Think(0)` does resolve a command (changing the anim node
and the pending count) but keeps facing and state node. -/
theorem think_zero_preserves_witness :
    (spriteAfter (Think wGrp 0 0 [] 9) 0).map Sprite.facing = some (spr wGrp 0).facing ∧
    (spriteAfter (Think wGrp 0 0 [] 9) 0).map Sprite.state_node =
      some (spr wGrp 0).state_node := by
  cases hok : Think wGrp 0 0 [] 9 with
  | ok w' rng' =>
    obtain ⟨hf, hs⟩ := think_zero_preserves_state_facing wGrp 0 [] 9 w' rng'
      (by decide) (by decide) (node_time_nonneg _ (by decide)) hok
    constructor
    · simp only [spriteAfter, Option.map_some']
      exact congrArg some hf
    · simp only [spriteAfter, Option.map_some']
      exact congrArg some hs
  | crash => exact absurd hok (by decide)
  | fuelOut => exact absurd hok (by decide)

/-! C2: barrier synchronization. -/

theorem getD_out_of_range {α : Type} (l : List α) (n : Nat) (d : α) (h : ¬n < l.length) :
    l.getD n d = d := by
  induction l generalizing n with
  | nil => cases n <;> rfl
  | cons a t ih =>
    cases n with
    | zero => exact absurd (by simp) h
    | succ m => exact ih m (fun hm => h (by simpa using hm))

theorem lookup_cons_ne {α : Type} (ka i : Nat) (va : α) (t : List (Nat × α)) (h : ¬i = ka) :
    List.lookup i ((ka, va) :: t) = List.lookup i t := by
  simp [List.lookup, beq_eq_false_iff_ne.mpr h]

theorem lookup_filter_ne {α : Type} (l : List (Nat × α)) (k i : Nat) (h : ¬i = k) :
    (l.filter (fun p => p.1 != k)).lookup i = l.lookup i := by
  induction l with
  | nil => rfl
  | cons a t ih =>
    obtain ⟨ka, va⟩ := a
    by_cases hk : ka = k
    · subst hk
      rw [List.filter_cons, if_neg (by simp), ih, lookup_cons_ne _ _ _ _ h]
    · rw [List.filter_cons, if_pos (by simpa using hk)]
      by_cases hik : i = ka
      · subst hik
        simp [List.lookup]
      · rw [lookup_cons_ne _ _ _ _ hik, lookup_cons_ne _ _ _ _ hik, ih]

theorem lookup_setA_self {α : Type} (l : List (Nat × α)) (k : Nat) (v : α) :
    (setA l k v).lookup k = some v := by
  simp [setA, List.lookup]

theorem lookup_setA_ne {α : Type} (l : List (Nat × α)) (k i : Nat) (v : α) (h : ¬i = k) :
    (setA l k v).lookup i = l.lookup i := by
  unfold setA
  rw [lookup_cons_ne _ _ _ _ h]
  exact lookup_filter_ne l k i h

theorem readyFold_lookup_not_mem (w : World) (cg : CommandGroup) (l : List Nat)
    (acc : List (Nat × Int) × List (Nat × List Nat) × Int × List F64) (i : Nat)
    (h : i ∉ l) :
    ((l.foldl (readyStep w cg) acc).1.lookup i = acc.1.lookup i) ∧
    ((l.foldl (readyStep w cg) acc).2.1.lookup i = acc.2.1.lookup i) := by
  induction l generalizing acc with
  | nil => exact ⟨rfl, rfl⟩
  | cons j t ih =>
    have hij : ¬i = j := fun he => h (by simp [he])
    have ht : i ∉ t := fun ht2 => h (by simp [ht2])
    obtain ⟨h1, h2⟩ := ih (readyStep w cg acc j) ht
    rw [List.foldl_cons]
    refine ⟨h1.trans ?_, h2.trans ?_⟩
    · exact lookup_setA_ne _ _ _ _ hij
    · exact lookup_setA_ne _ _ _ _ hij

theorem readyFold_lookup_mem (w : World) (cg : CommandGroup) (l : List Nat)
    (acc : List (Nat × Int) × List (Nat × List Nat) × Int × List F64) (i : Nat)
    (hnd : l.Nodup) (h : i ∈ l) :
    (l.foldl (readyStep w cg) acc).1.lookup i =
      some (readyTotal (spr w i).shared.anim cg.sync_tag (spr w i).togo (spr w i).anim_node
        true (((l.foldl (readyStep w cg) acc).2.1.lookup i).getD [])) := by
  induction l generalizing acc with
  | nil => cases h
  | cons j t ih =>
    rw [List.foldl_cons]
    rcases List.mem_cons.mp h with he | ht
    · subst he
      have hnt : i ∉ t := (List.nodup_cons.mp hnd).1
      obtain ⟨h1, h2⟩ := readyFold_lookup_not_mem w cg t (readyStep w cg acc i) i hnt
      rw [h1, h2]
      unfold readyStep
      dsimp only
      rw [lookup_setA_self, lookup_setA_self]
      rfl
    · have hij : ¬i = j := fun he => (List.nodup_cons.mp hnd).1 (he ▸ ht)
      exact ih (readyStep w cg acc j) (List.nodup_cons.mp hnd).2 ht

theorem readyFold_max (w : World) (cg : CommandGroup) :
    ∀ (l : List Nat) (acc : List (Nat × Int) × List (Nat × List Nat) × Int × List F64),
      l.Nodup →
      (l.foldl (readyStep w cg) acc).2.2.1 =
        l.foldl (fun m j => max m (((l.foldl (readyStep w cg) acc).1.lookup j).getD 0))
          acc.2.2.1
  | [], acc, _ => rfl
  | j :: t, acc, hnd => by
    rw [List.foldl_cons, List.foldl_cons]
    have hnt : j ∉ t := (List.nodup_cons.mp hnd).1
    have hpres := (readyFold_lookup_not_mem w cg t (readyStep w cg acc j) j hnt).1
    rw [readyFold_max w cg t (readyStep w cg acc j) (List.nodup_cons.mp hnd).2]
    congr 1
    rw [hpres]
    unfold readyStep
    dsimp only
    rw [lookup_setA_self]
    rfl

theorem eta2Fold_not_mem (mx : Int) :
    ∀ (l : List Nat) (eta : List (Nat × Int)) (i : Nat), i ∉ l →
      (l.foldl (fun e j => setA e j (mx - (e.lookup j).getD 0)) eta).lookup i = eta.lookup i
  | [], _, _, _ => rfl
  | j :: t, eta, i, h => by
    rw [List.foldl_cons]
    have hij : ¬i = j := fun he => h (by simp [he])
    rw [eta2Fold_not_mem mx t _ i (fun ht => h (by simp [ht]))]
    exact lookup_setA_ne _ _ _ _ hij

theorem eta2Fold_mem (mx : Int) :
    ∀ (l : List Nat) (eta : List (Nat × Int)) (i : Nat), l.Nodup → i ∈ l →
      (l.foldl (fun e j => setA e j (mx - (e.lookup j).getD 0)) eta).lookup i =
        some (mx - (eta.lookup i).getD 0)
  | [], _, _, _, h => absurd h (List.not_mem_nil _)
  | j :: t, eta, i, hnd, h => by
    rw [List.foldl_cons]
    rcases List.mem_cons.mp h with he | ht
    · subst he
      rw [eta2Fold_not_mem mx t _ i (List.nodup_cons.mp hnd).1]
      exact lookup_setA_self _ _ _
    · have hij : ¬i = j := fun he => (List.nodup_cons.mp hnd).1 (he ▸ ht)
      rw [eta2Fold_mem mx t _ i (List.nodup_cons.mp hnd).2 ht]
      rw [lookup_setA_ne _ _ _ _ hij]

/-- The wait offset a world's group stores for a sprite. -/
def etaOf (w : World) (gi i : Nat) : Int :=
  ((w.groups.getD gi default).eta.lookup i).getD 0

/-- The synced path a world's group stores for a sprite. -/
def pathOf (w : World) (gi i : Nat) : List Nat :=
  ((w.groups.getD gi default).paths.lookup i).getD []

/-- A member's accumulated pre-sync time: the `readyTotal` charge along
the path the group (in the post-`ready` world `wPost`) stored for it,
starting from its current anim node and remaining frame time. -/
def groupTotal (w wPost : World) (gi i : Nat) : Int :=
  readyTotal (spr w i).shared.anim (w.groups.getD gi default).sync_tag (spr w i).togo
    (spr w i).anim_node true (pathOf wPost gi i)

/-- C2: on the call where `ready` first returns true (members pairwise
distinct), the wait offset stored for each member equals the maximum
accumulated pre-sync time over all members minus that member's own
accumulated pre-sync time, where the accumulated time charges, along
the member's stored synced path up to (excluding) the first node whose
sync tag is the group's, the member's `togo` at step 0 and the
destination node's duration later, and nothing across group edges. -/
theorem commandGroup_ready_eta (w : World) (gi : Nat) (rng : List F64)
    (hnr : (w.groups.getD gi default).was_ready = false)
    (hnd : (w.groups.getD gi default).sprites.Nodup)
    (hrdy : (ready w gi rng).1 = true)
    (i : Nat) (hi : i ∈ (w.groups.getD gi default).sprites) :
    etaOf (ready w gi rng).2.1 gi i =
      ((w.groups.getD gi default).sprites.map (groupTotal w (ready w gi rng).2.1 gi)).foldl
          max 0
        - groupTotal w (ready w gi rng).2.1 gi i := by
  have hgi : gi < w.groups.length := by
    by_contra hlt
    rw [getD_out_of_range _ _ _ hlt] at hi
    cases hi
  by_cases hany : ((w.groups.getD gi default).sprites.any
      (fun j =>
        let sp := w.sprites.getD j default
        !sp.path.isEmpty || sp.pending_cmds.isEmpty ||
          ((sp.pending_cmds.headD default).group != some gi))) = true
  · exfalso
    simp only [ready, hnr] at hrdy
    rw [if_neg (by simp), if_pos hany] at hrdy
    exact Bool.false_ne_true hrdy
  · simp only [ready, hnr]
    rw [if_neg (by simp), if_neg hany]
    dsimp only
    rw [show ∀ cg2 : CommandGroup,
        etaOf { w with groups := w.groups.set gi cg2 } gi i =
          (cg2.eta.lookup i).getD 0 from
      fun cg2 => by unfold etaOf; rw [getD_set_self _ _ _ _ hgi]]
    rw [eta2Fold_mem _ _ _ _ hnd hi]
    rw [readyFold_lookup_mem w _ _ _ i hnd hi]
    rw [readyFold_max w _ _ _ hnd]
    simp only [Option.getD_some]
    congr 1
    · rw [List.foldl_map]
      refine List.foldl_ext _ _ _ ?_
      intro m j hj
      congr 1
      rw [readyFold_lookup_mem w _ _ _ j hnd hj]
      simp only [Option.getD_some]
      unfold groupTotal pathOf
      rw [getD_set_self _ _ _ _ hgi]
    · unfold groupTotal pathOf
      rw [getD_set_self _ _ _ _ hgi]

/-- C2 witness: the barrier theorem applied to the two-member world
with accumulated pre-sync times 120 and 40; the stored wait offsets are
0 and 80. -/
theorem commandGroup_ready_eta_witness :
    etaOf (ready wSync 0 []).2.1 0 0 = 0 ∧ etaOf (ready wSync 0 []).2.1 0 1 = 80 := by
  have h0 := commandGroup_ready_eta wSync 0 [] (by decide) (by decide) (by decide) 0 (by decide)
  have h1 := commandGroup_ready_eta wSync 0 [] (by decide) (by decide) (by decide) 1 (by decide)
  exact ⟨h0.trans (by decide), h1.trans (by decide)⟩

end Glop
